import Mathlib

/-!
Verification of the Ekiga presence-aggregation core (presence-core.h) and the
XCAP plugin bootstrap (plugins/xcap/xcap-main.cpp).

The repository ships the declaration header `presence-core.h` for
`Ekiga::PresenceCore` together with the specification of its behaviour; the
implementation file `presence-core.cpp` is not among the sources.  The state
and the operations below are therefore a shallow embedding built from the
header's declarations (field names, default values of `uri_info`, container
choices) and, for the operation bodies, from the specification's component
contracts (UriStateCache, FetcherRegistry, PublisherRegistry, ClusterRegistry,
PresenceCore orchestrator).  Each such definition carries a doc comment
starting `Modelled from the spec:`.

Modelling conventions:
* a fetcher / publisher / cluster is identified by a numeric identity
  (standing for the shared-pointer identity used by the C++ registries);
  a fetcher additionally carries its `is_supported_uri` predicate;
* side effects on external collaborators (underlying `fetch`/`unfetch`
  dispatches, outward signal emissions, publisher `publish` calls) are
  recorded as an event trace returned next to the new state;
* the per-uri refcount is an `Int`, as the C++ field `int count` is, so that
  non-negativity is a proved property and not a typing artefact;
* documented implementation choices left open by the spec: a record whose
  refcount reaches 0 is retained (not pruned), and the outward
  `presence_received` / `note_received` events are emitted unconditionally
  (not only on change), both explicitly allowed by the spec.
-/

/-- Cached per-uri record, from the header: `struct uri_info { int count;
std::string presence; std::string note; }` with constructor defaults
`count(0), presence("unknown"), note("")`. -/
structure uri_info where
  count : Int
  presence : String
  note : String
deriving DecidableEq

/-- The defaults of a freshly-constructed `uri_info`. -/
def uri_info.init : uri_info :=
  { count := 0, presence := "unknown", note := "" }

/-- A presence fetcher capability: identity (shared-pointer identity in C++)
plus its `is_supported_uri` predicate.  `fetch`/`unfetch` calls on it are
recorded as trace events. -/
structure PresenceFetcher where
  id : Nat
  supports : String → Bool

/-- A presence publisher capability, identified by its identity; its
`publish` calls are recorded as trace events. -/
structure PresencePublisher where
  id : Nat
deriving DecidableEq

/-- Observable effects of the core on its collaborators and listeners. -/
inductive Event where
  | fetch : Nat → String → Event
  | unfetch : Nat → String → Event
  | presence_received : String → String → Event
  | note_received : String → String → Event
  | cluster_added : Nat → Event
  | cluster_removed : Nat → Event
  | published : Nat → String → Event
deriving DecidableEq

/-- Number of occurrences of event `e` in a trace. -/
def countEv (e : Event) (l : List Event) : Nat :=
  l.countP (fun x => decide (x = e))

/-- Lookup in the uri → record map (`std::map<std::string, uri_info>`),
embedded as an association list. -/
def lookupInfo : List (String × uri_info) → String → Option uri_info
  | [], _ => none
  | (v, j) :: rest, u => if v = u then some j else lookupInfo rest u

/-- Insert-or-overwrite in the uri → record map. -/
def setInfo : List (String × uri_info) → String → uri_info → List (String × uri_info)
  | [], u, i => [(u, i)]
  | (v, j) :: rest, u, i =>
    if v = u then (u, i) :: rest else (v, j) :: setInfo rest u i

/-- Modelled from the spec: `UriStateCache.touch(uri)` (presence-core.cpp is
not in the sources).  Creates the record if absent with the `uri_info`
defaults, increments the refcount, and returns whether the refcount went
0 → 1 (`isFirstSubscriber`). -/
def touch (m : List (String × uri_info)) (u : String) :
    Bool × List (String × uri_info) :=
  let i := (lookupInfo m u).getD uri_info.init
  (decide (i.count = 0), setInfo m u { i with count := i.count + 1 })

/-- Modelled from the spec: `UriStateCache.release(uri)`.  Decrements the
refcount if the record is present with a positive count, returning whether
it reached 0 (`isLastSubscriber`); on an unknown uri (or a non-positive
count) it is a no-op returning `false`.  Documented choice: a record whose
refcount reaches 0 is retained, not pruned. -/
def release (m : List (String × uri_info)) (u : String) :
    Bool × List (String × uri_info) :=
  match lookupInfo m u with
  | none => (false, m)
  | some i =>
    if 0 < i.count then
      (decide (i.count = 1), setInfo m u { i with count := i.count - 1 })
    else
      (false, m)

/-- Modelled from the spec: `UriStateCache.update_presence(uri, value)`.
Creates the record if absent, overwrites the presence field, and returns the
previous value. -/
def update_presence (m : List (String × uri_info)) (u v : String) :
    String × List (String × uri_info) :=
  let i := (lookupInfo m u).getD uri_info.init
  (i.presence, setInfo m u { i with presence := v })

/-- Modelled from the spec: `UriStateCache.update_note(uri, value)`. -/
def update_note (m : List (String × uri_info)) (u v : String) :
    String × List (String × uri_info) :=
  let i := (lookupInfo m u).getD uri_info.init
  (i.note, setInfo m u { i with note := v })

/-- Modelled from the spec: `UriStateCache.snapshot(uri)`; read-only, returns
the defaults `("unknown", "")` for an unknown uri. -/
def snapshot (m : List (String × uri_info)) (u : String) : String × String :=
  let i := (lookupInfo m u).getD uri_info.init
  (i.presence, i.note)

/-- Modelled from the spec: FetcherRegistry `add` — set semantics keyed by
identity: adding an already-registered fetcher has no additional effect. -/
def fr_add (l : List PresenceFetcher) (f : PresenceFetcher) : List PresenceFetcher :=
  if l.any (fun g => g.id == f.id) then l else l ++ [f]

/-- Modelled from the spec: FetcherRegistry `remove` — removes by identity;
removing an unregistered fetcher is a no-op. -/
def fr_remove (l : List PresenceFetcher) (f : PresenceFetcher) : List PresenceFetcher :=
  l.filter (fun g => g.id != f.id)

/-- Modelled from the spec: FetcherRegistry `supports(uri)` — true iff at
least one registered fetcher's `is_supported_uri(uri)` is true. -/
def fr_supports (l : List PresenceFetcher) (u : String) : Bool :=
  l.any (fun g => g.supports u)

/-- Modelled from the spec: FetcherRegistry `fetch(uri)` — dispatches
`fetch(uri)` to every registered fetcher whose `supports(uri)` is true. -/
def fr_fetch (l : List PresenceFetcher) (u : String) : List Event :=
  (l.filter (fun g => g.supports u)).map (fun g => Event.fetch g.id u)

/-- Modelled from the spec: FetcherRegistry `unfetch(uri)` — symmetric
dispatch of `unfetch(uri)` to the supporting set. -/
def fr_unfetch (l : List PresenceFetcher) (u : String) : List Event :=
  (l.filter (fun g => g.supports u)).map (fun g => Event.unfetch g.id u)

/-- Modelled from the spec: PublisherRegistry `add` — set semantics keyed by
identity. -/
def pr_add (l : List PresencePublisher) (p : PresencePublisher) : List PresencePublisher :=
  if l.any (fun q => q.id == p.id) then l else l ++ [p]

/-- Modelled from the spec: PublisherRegistry `remove` — removes by identity;
no-op when absent. -/
def pr_remove (l : List PresencePublisher) (p : PresencePublisher) : List PresencePublisher :=
  l.filter (fun q => q.id != p.id)

/-- Modelled from the spec: PublisherRegistry `publish_all(details)` — calls
`publish(details)` on every registered publisher. -/
def publish_all (l : List PresencePublisher) (d : String) : List Event :=
  l.map (fun p => Event.published p.id d)

/-- State of `Ekiga::PresenceCore`, from the header's private fields:
`std::set<ClusterPtr> clusters`, `std::list<...> presence_fetchers`,
`std::list<...> presence_publishers`, `std::map<std::string, uri_info>
uri_infos`, and the `PersonalDetails` reference (embedded as the current
details snapshot string). -/
structure PresenceCore where
  clusters : List Nat
  presence_fetchers : List PresenceFetcher
  presence_publishers : List PresencePublisher
  uri_infos : List (String × uri_info)
  details : String

/-- A freshly-constructed `PresenceCore` holding the given personal details:
every registry is empty and no uri record exists. -/
def mkPresenceCore (d : String) : PresenceCore :=
  { clusters := [], presence_fetchers := [], presence_publishers := [],
    uri_infos := [], details := d }

/-- Logical refcount the core caches for a uri (0 when no record exists). -/
def uriCount (s : PresenceCore) (u : String) : Int :=
  ((lookupInfo s.uri_infos u).getD uri_info.init).count

/-- Modelled from the spec: `PresenceCore::add_cluster` — inserts if absent
(set semantics) and emits `cluster_added` on a successful insert only. -/
def add_cluster (s : PresenceCore) (c : Nat) : PresenceCore × List Event :=
  if s.clusters.contains c then (s, [])
  else ({ s with clusters := s.clusters ++ [c] }, [Event.cluster_added c])

/-- Modelled from the spec: `PresenceCore::remove_cluster` — removes if
present and emits `cluster_removed` on a successful removal; removing an
absent cluster is a no-op emitting nothing. -/
def remove_cluster (s : PresenceCore) (c : Nat) : PresenceCore × List Event :=
  if s.clusters.contains c then
    ({ s with clusters := s.clusters.filter (fun x => x != c) },
     [Event.cluster_removed c])
  else (s, [])

/-- Modelled from the spec: `PresenceCore::add_presence_fetcher` — delegates
to the FetcherRegistry's set-semantics add (the event bridge to the
fetcher's signals is implicit: every fetcher emission is routed through
`on_presence_received` / `on_note_received`). -/
def add_presence_fetcher (s : PresenceCore) (f : PresenceFetcher) : PresenceCore :=
  { s with presence_fetchers := fr_add s.presence_fetchers f }

/-- Modelled from the spec: `PresenceCore::remove_presence_fetcher`. -/
def remove_presence_fetcher (s : PresenceCore) (f : PresenceFetcher) : PresenceCore :=
  { s with presence_fetchers := fr_remove s.presence_fetchers f }

/-- Modelled from the spec: `PresenceCore::add_presence_publisher`. -/
def add_presence_publisher (s : PresenceCore) (p : PresencePublisher) : PresenceCore :=
  { s with presence_publishers := pr_add s.presence_publishers p }

/-- Modelled from the spec: `PresenceCore::remove_presence_publisher`. -/
def remove_presence_publisher (s : PresenceCore) (p : PresencePublisher) : PresenceCore :=
  { s with presence_publishers := pr_remove s.presence_publishers p }

/-- Modelled from the spec: `PresenceCore::is_supported_uri` — delegates to
the FetcherRegistry. -/
def is_supported_uri (s : PresenceCore) (u : String) : Bool :=
  fr_supports s.presence_fetchers u

/-- Modelled from the spec: `PresenceCore::fetch_presence(uri)` — a no-op if
no registered fetcher supports the uri; otherwise touches the cache and, on
the 0 → 1 refcount transition only, forwards the underlying `fetch(uri)` to
every supporting fetcher. -/
def fetch_presence (s : PresenceCore) (u : String) : PresenceCore × List Event :=
  if is_supported_uri s u then
    let r := touch s.uri_infos u
    ({ s with uri_infos := r.2 },
     if r.1 then fr_fetch s.presence_fetchers u else [])
  else (s, [])

/-- Modelled from the spec: `PresenceCore::unfetch_presence(uri)` — releases
the cache entry and, only when the release reports the last subscriber is
gone (1 → 0 transition), forwards the underlying `unfetch(uri)` to every
supporting fetcher. -/
def unfetch_presence (s : PresenceCore) (u : String) : PresenceCore × List Event :=
  let r := release s.uri_infos u
  ({ s with uri_infos := r.2 },
   if r.1 then fr_unfetch s.presence_fetchers u else [])

/-- Modelled from the spec: `PresenceCore::on_presence_received(uri, value)`,
the internal handler wired to every registered fetcher's `presence_received`
signal — updates the cached presence and emits the outward
`presence_received(uri, value)` event (documented choice: unconditionally,
not only on change). -/
def on_presence_received (s : PresenceCore) (u v : String) : PresenceCore × List Event :=
  let r := update_presence s.uri_infos u v
  ({ s with uri_infos := r.2 }, [Event.presence_received u v])

/-- Modelled from the spec: `PresenceCore::on_note_received(uri, value)` —
symmetric to `on_presence_received` for the note field. -/
def on_note_received (s : PresenceCore) (u v : String) : PresenceCore × List Event :=
  let r := update_note s.uri_infos u v
  ({ s with uri_infos := r.2 }, [Event.note_received u v])

/-- Modelled from the spec: `PresenceCore::publish()`, triggered by a
personal-details change notification — fans the current details snapshot out
to every registered publisher. -/
def publish (s : PresenceCore) : List Event :=
  publish_all s.presence_publishers s.details

/-- A subscription-interface call: `fetch_presence` or `unfetch_presence`
for some uri. -/
inductive FUOp where
  | fetch : String → FUOp
  | unfetch : String → FUOp
deriving DecidableEq

/-- One subscription call on the core. -/
def stepFU (s : PresenceCore) : FUOp → PresenceCore × List Event
  | FUOp.fetch u => fetch_presence s u
  | FUOp.unfetch u => unfetch_presence s u

/-- Run a sequence of subscription calls, accumulating the event trace. -/
def runFU (s : PresenceCore) : List FUOp → PresenceCore × List Event
  | [] => (s, [])
  | op :: ops =>
    let r := stepFU s op
    let r2 := runFU r.1 ops
    (r2.1, r.2 ++ r2.2)

/-- Per-call refcount transition for a given uri: +1 on a `fetch_presence`
of that uri, −1 clamped at 0 on an `unfetch_presence` of that uri, unchanged
on calls for other uris. -/
def claimStep (u : String) (acc : Int) : FUOp → Int
  | FUOp.fetch v => if v = u then acc + 1 else acc
  | FUOp.unfetch v => if v = u then max 0 (acc - 1) else acc

/-- Refcount predicted by folding `claimStep` over the call sequence from 0. -/
def clampFold (u : String) (ops : List FUOp) : Int :=
  ops.foldl (claimStep u) 0

/-- The refcount value asserted by the spec sentence, taken at its word:
(#`fetch_presence(u)` calls) − (#`unfetch_presence(u)` calls), clamped at 0
at the end. -/
def specClaimedCount (u : String) (ops : List FUOp) : Int :=
  max 0 (((ops.filter (fun op => decide (op = FUOp.fetch u))).length : Int) -
         ((ops.filter (fun op => decide (op = FUOp.unfetch u))).length : Int))

/-- Example fetcher: identity 0, supports every uri. -/
def Fex : PresenceFetcher := { id := 0, supports := fun _ => true }

/-- Example fetcher supporting no uri. -/
def Fnone : PresenceFetcher := { id := 3, supports := fun _ => false }

/-- Example core with the single fetcher `Fex` registered. -/
def sEx : PresenceCore :=
  { clusters := [], presence_fetchers := [Fex], presence_publishers := [],
    uri_infos := [], details := "snap" }

/-- Example core with two registered publishers. -/
def sPub : PresenceCore :=
  { clusters := [], presence_fetchers := [], presence_publishers := [⟨1⟩, ⟨2⟩],
    uri_infos := [], details := "snap" }

/-- State reached by registering `Fex`, fetching presence for `"u"` once,
and then removing `Fex`: the uri `"u"` is no longer supported but its cached
refcount is still 1. -/
def c8state : PresenceCore :=
  remove_presence_fetcher (fetch_presence sEx "u").1 Fex

/-- State of the XCAP plugin spark (xcap-main.cpp): the sticky `result`
flag, `false` on construction. -/
structure XCAPSpark where
  result : Bool
deriving DecidableEq

/-- The two `Ekiga::Spark::state` values `XCAPSpark::get_state` can return
(`result ? FULL : BLANK`). -/
inductive SparkState where
  | BLANK
  | FULL
deriving DecidableEq

/-- Modelled from the source: the service name under which the XCAP core is
registered.  `xcap-core.h` is not among the sources; the guard
`core.get ("xcap-core")` in `try_initialize_more` identifies the name the
`XCAP::Core` service is looked up under. -/
def xcapServiceName : String := "xcap-core"

/-- `Ekiga::ServiceCore` embedded as the list of registered service names;
`get` is a lookup by name. -/
def serviceGet (core : List String) (n : String) : Bool :=
  core.contains n

/-- `XCAPSpark::try_initialize_more` (xcap-main.cpp): if no service named
`"xcap-core"` is registered, a new `XCAP::Core` is added to the `ServiceCore`
and `result` is set to `true`; the (spark, core) pair and the returned
boolean are the outcome. -/
def try_initialize_more (sp : XCAPSpark) (core : List String) :
    (XCAPSpark × List String) × Bool :=
  if serviceGet core xcapServiceName then ((sp, core), sp.result)
  else (({ result := true }, core ++ [xcapServiceName]), true)

/-- `XCAPSpark::get_state`: `result ? FULL : BLANK`. -/
def XCAPSpark.get_state (sp : XCAPSpark) : SparkState :=
  if sp.result then SparkState.FULL else SparkState.BLANK

/-- Iterate `try_initialize_more` `n` times against the same service core,
threading the spark and the core through. -/
def runSpark (sp : XCAPSpark) (core : List String) : Nat → XCAPSpark × List String
  | 0 => (sp, core)
  | n + 1 =>
    let r := try_initialize_more sp core
    runSpark r.1.1 r.1.2 n

/-! ### Lemmas about the uri → record map -/

theorem lookupInfo_setInfo_self (m : List (String × uri_info)) (u : String)
    (i : uri_info) : lookupInfo (setInfo m u i) u = some i := by
  induction m with
  | nil => simp [setInfo, lookupInfo]
  | cons h t ih =>
    obtain ⟨v, j⟩ := h
    by_cases hv : v = u
    · simp [setInfo, hv, lookupInfo]
    · simp [setInfo, hv, lookupInfo, ih]

theorem lookupInfo_setInfo_ne (m : List (String × uri_info)) (u v : String)
    (i : uri_info) (h : v ≠ u) :
    lookupInfo (setInfo m v i) u = lookupInfo m u := by
  induction m with
  | nil => simp [setInfo, lookupInfo, h]
  | cons hd t ih =>
    obtain ⟨w, j⟩ := hd
    by_cases hw : w = v
    · subst hw
      simp [setInfo, lookupInfo, h]
    · by_cases hwu : w = u
      · simp [setInfo, hw, lookupInfo, hwu, Ne.symm h]
      · simp [setInfo, hw, lookupInfo, hwu, ih]

/-! ### Preservation of the registries by the subscription interface -/

theorem fetch_presence_fetchers (s : PresenceCore) (u : String) :
    (fetch_presence s u).1.presence_fetchers = s.presence_fetchers := by
  by_cases h : is_supported_uri s u = true <;> simp [fetch_presence, h]

theorem unfetch_presence_fetchers (s : PresenceCore) (u : String) :
    (unfetch_presence s u).1.presence_fetchers = s.presence_fetchers := rfl

theorem stepFU_fetchers (s : PresenceCore) (op : FUOp) :
    (stepFU s op).1.presence_fetchers = s.presence_fetchers := by
  cases op with
  | fetch u => exact fetch_presence_fetchers s u
  | unfetch u => exact unfetch_presence_fetchers s u

theorem runFU_fetchers (ops : List FUOp) : ∀ s : PresenceCore,
    (runFU s ops).1.presence_fetchers = s.presence_fetchers := by
  induction ops with
  | nil => intro s; rfl
  | cons op ops ih =>
    intro s
    show (runFU (stepFU s op).1 ops).1.presence_fetchers = _
    rw [ih, stepFU_fetchers]

theorem stepFU_supported (s : PresenceCore) (op : FUOp) (u : String) :
    is_supported_uri (stepFU s op).1 u = is_supported_uri s u := by
  unfold is_supported_uri
  rw [stepFU_fetchers]

theorem runFU_append (as bs : List FUOp) : ∀ s : PresenceCore,
    runFU s (as ++ bs) =
      ((runFU (runFU s as).1 bs).1,
       (runFU s as).2 ++ (runFU (runFU s as).1 bs).2) := by
  induction as with
  | nil => intro s; simp [runFU]
  | cons op as ih =>
    intro s
    simp [runFU, ih, List.append_assoc]

/-! ### Refcount dynamics of the subscription interface -/

theorem uriCount_fetch_presence_self (s : PresenceCore) (u : String)
    (hsupp : is_supported_uri s u = true) :
    uriCount (fetch_presence s u).1 u = uriCount s u + 1 := by
  simp [fetch_presence, hsupp, touch, uriCount, lookupInfo_setInfo_self]

theorem fetch_presence_state_unsupported (s : PresenceCore) (u : String)
    (h : is_supported_uri s u = false) : (fetch_presence s u).1 = s := by
  simp [fetch_presence, h]

theorem uriCount_fetch_presence_ne (s : PresenceCore) (u v : String)
    (hne : v ≠ u) : uriCount (fetch_presence s v).1 u = uriCount s u := by
  by_cases h : is_supported_uri s v = true
  · simp [fetch_presence, h, touch, uriCount, lookupInfo_setInfo_ne _ _ _ _ hne]
  · simp [fetch_presence, h]

theorem uriCount_unfetch_presence_self (s : PresenceCore) (u : String) :
    uriCount (unfetch_presence s u).1 u =
      if 0 < uriCount s u then uriCount s u - 1 else uriCount s u := by
  cases hl : lookupInfo s.uri_infos u with
  | none => simp [unfetch_presence, release, uriCount, hl, uri_info.init]
  | some i =>
    by_cases hc : 0 < i.count
    · simp [unfetch_presence, release, uriCount, hl, hc, lookupInfo_setInfo_self]
    · simp [unfetch_presence, release, uriCount, hl, hc]

theorem uriCount_unfetch_presence_ne (s : PresenceCore) (u v : String)
    (hne : v ≠ u) : uriCount (unfetch_presence s v).1 u = uriCount s u := by
  cases hl : lookupInfo s.uri_infos v with
  | none => simp [unfetch_presence, release, uriCount, hl]
  | some i =>
    by_cases hc : 0 < i.count
    · simp [unfetch_presence, release, uriCount, hl, hc,
        lookupInfo_setInfo_ne _ _ _ _ hne]
    · simp [unfetch_presence, release, uriCount, hl, hc]

/-! ### Events emitted by the subscription interface -/

theorem fetch_presence_events (s : PresenceCore) (u : String) :
    (fetch_presence s u).2 =
      if is_supported_uri s u = true ∧ uriCount s u = 0 then
        fr_fetch s.presence_fetchers u
      else [] := by
  by_cases h : is_supported_uri s u = true
  · by_cases h0 : uriCount s u = 0
    · unfold uriCount at h0
      simp [fetch_presence, h, touch, h0, uriCount]
    · unfold uriCount at h0
      simp [fetch_presence, h, touch, h0, uriCount]
  · simp [fetch_presence, h]

theorem unfetch_presence_events (s : PresenceCore) (u : String) :
    (unfetch_presence s u).2 =
      if uriCount s u = 1 then fr_unfetch s.presence_fetchers u else [] := by
  cases hl : lookupInfo s.uri_infos u with
  | none => simp [unfetch_presence, release, uriCount, hl, uri_info.init]
  | some i =>
    by_cases hc : 0 < i.count
    · by_cases h1 : i.count = 1
      · simp [unfetch_presence, release, uriCount, hl, hc, h1]
      · simp [unfetch_presence, release, uriCount, hl, hc, h1]
    · have h1 : ¬ i.count = 1 := by omega
      simp [unfetch_presence, release, uriCount, hl, hc, h1]

/-! ### Counting dispatched calls -/

theorem countEv_append (e : Event) (l₁ l₂ : List Event) :
    countEv e (l₁ ++ l₂) = countEv e l₁ + countEv e l₂ :=
  List.countP_append _ _ _

theorem countEv_fr_fetch_eq_one (l : List PresenceFetcher) (F : PresenceFetcher)
    (u : String) (hfilter : l.filter (fun g => g.id == F.id) = [F])
    (hsupp : F.supports u = true) :
    countEv (Event.fetch F.id u) (fr_fetch l u) = 1 := by
  have h1 : List.filter (fun g => g.supports u)
      (List.filter (fun g => g.id == F.id) l) = [F] := by
    rw [hfilter]
    simp [List.filter, hsupp]
  rw [List.filter_filter] at h1
  show List.countP (fun x => decide (x = Event.fetch F.id u))
      ((l.filter (fun g => g.supports u)).map (fun g => Event.fetch g.id u)) = 1
  rw [List.countP_map, List.countP_eq_length_filter, List.filter_filter]
  have h2 : List.filter
      (fun a => ((fun x => decide (x = Event.fetch F.id u)) ∘
        (fun g => Event.fetch g.id u)) a && a.supports u) l =
      List.filter (fun a => a.supports u && (a.id == F.id)) l := by
    apply List.filter_congr
    intro a _
    by_cases hid : a.id = F.id <;> simp [Function.comp, hid, Bool.and_comm]
  rw [h2, h1]
  rfl

theorem countEv_fr_unfetch_eq_one (l : List PresenceFetcher) (F : PresenceFetcher)
    (u : String) (hfilter : l.filter (fun g => g.id == F.id) = [F])
    (hsupp : F.supports u = true) :
    countEv (Event.unfetch F.id u) (fr_unfetch l u) = 1 := by
  have h1 : List.filter (fun g => g.supports u)
      (List.filter (fun g => g.id == F.id) l) = [F] := by
    rw [hfilter]
    simp [List.filter, hsupp]
  rw [List.filter_filter] at h1
  show List.countP (fun x => decide (x = Event.unfetch F.id u))
      ((l.filter (fun g => g.supports u)).map (fun g => Event.unfetch g.id u)) = 1
  rw [List.countP_map, List.countP_eq_length_filter, List.filter_filter]
  have h2 : List.filter
      (fun a => ((fun x => decide (x = Event.unfetch F.id u)) ∘
        (fun g => Event.unfetch g.id u)) a && a.supports u) l =
      List.filter (fun a => a.supports u && (a.id == F.id)) l := by
    apply List.filter_congr
    intro a _
    by_cases hid : a.id = F.id <;> simp [Function.comp, hid, Bool.and_comm]
  rw [h2, h1]
  rfl

theorem countEv_unfetch_fr_fetch (l : List PresenceFetcher) (u : String)
    (a : Nat) (b : String) : countEv (Event.unfetch a b) (fr_fetch l u) = 0 := by
  unfold countEv fr_fetch
  rw [List.countP_eq_zero]
  intro e he
  obtain ⟨g, -, rfl⟩ := List.mem_map.mp he
  simp

theorem countEv_unfetch_fetch_presence (s : PresenceCore) (u : String)
    (a : Nat) (b : String) :
    countEv (Event.unfetch a b) (fetch_presence s u).2 = 0 := by
  rw [fetch_presence_events]
  by_cases h : is_supported_uri s u = true ∧ uriCount s u = 0
  · simp only [h, if_true]
    exact countEv_unfetch_fr_fetch _ _ _ _
  · simp [h, countEv]

/-! ### Runs of repeated subscription calls -/

theorem runFU_cons (s : PresenceCore) (op : FUOp) (ops : List FUOp) :
    runFU s (op :: ops) =
      ((runFU (stepFU s op).1 ops).1,
       (stepFU s op).2 ++ (runFU (stepFU s op).1 ops).2) := rfl

theorem fetch_presence_events_of_ne_zero (s : PresenceCore) (u : String)
    (h : uriCount s u ≠ 0) : (fetch_presence s u).2 = [] := by
  rw [fetch_presence_events]
  simp [h]

theorem runFU_fetch_silent (u : String) (k : Nat) : ∀ s : PresenceCore,
    1 ≤ uriCount s u → (runFU s (List.replicate k (FUOp.fetch u))).2 = [] := by
  induction k with
  | zero => intro s _; rfl
  | succ k ih =>
    intro s hs
    rw [List.replicate_succ, runFU_cons]
    have h1 : (stepFU s (FUOp.fetch u)).2 = [] :=
      fetch_presence_events_of_ne_zero s u (by omega)
    have h2 : 1 ≤ uriCount (stepFU s (FUOp.fetch u)).1 u := by
      show 1 ≤ uriCount (fetch_presence s u).1 u
      by_cases hsupp : is_supported_uri s u = true
      · rw [uriCount_fetch_presence_self s u hsupp]; omega
      · rw [fetch_presence_state_unsupported s u (by simpa using hsupp)]
        exact hs
    rw [h1, ih _ h2]
    rfl

theorem runFU_fetch_count (u : String) (k : Nat) : ∀ s : PresenceCore,
    is_supported_uri s u = true →
    uriCount (runFU s (List.replicate k (FUOp.fetch u))).1 u =
      uriCount s u + (k : Int) := by
  induction k with
  | zero => intro s _; simp [runFU]
  | succ k ih =>
    intro s hs
    rw [List.replicate_succ, runFU_cons]
    show uriCount (runFU (stepFU s (FUOp.fetch u)).1 _).1 u = _
    rw [ih _ (by rw [stepFU_supported]; exact hs)]
    show uriCount (fetch_presence s u).1 u + (k : Int) = _
    rw [uriCount_fetch_presence_self s u hs]
    push_cast
    ring

theorem runFU_fetch_no_unfetch_ev (u : String) (a : Nat) (b : String) (k : Nat) :
    ∀ s : PresenceCore,
    countEv (Event.unfetch a b) (runFU s (List.replicate k (FUOp.fetch u))).2 = 0 := by
  induction k with
  | zero => intro s; rfl
  | succ k ih =>
    intro s
    rw [List.replicate_succ, runFU_cons]
    show countEv _ ((stepFU s (FUOp.fetch u)).2 ++ _) = 0
    rw [countEv_append]
    rw [show (stepFU s (FUOp.fetch u)).2 = (fetch_presence s u).2 from rfl]
    rw [countEv_unfetch_fetch_presence, ih]

theorem runFU_unfetch_silent (u : String) (k : Nat) : ∀ s : PresenceCore,
    (k : Int) < uriCount s u →
    (runFU s (List.replicate k (FUOp.unfetch u))).2 = [] ∧
    uriCount (runFU s (List.replicate k (FUOp.unfetch u))).1 u =
      uriCount s u - (k : Int) := by
  induction k with
  | zero => intro s _; exact ⟨rfl, by simp [runFU]⟩
  | succ k ih =>
    intro s hs
    have hgt : 0 < uriCount s u := by push_cast at hs; omega
    have hne1 : uriCount s u ≠ 1 := by push_cast at hs; omega
    rw [List.replicate_succ, runFU_cons]
    have h1 : (stepFU s (FUOp.unfetch u)).2 = [] := by
      show (unfetch_presence s u).2 = []
      rw [unfetch_presence_events]
      simp [hne1]
    have h2 : uriCount (stepFU s (FUOp.unfetch u)).1 u = uriCount s u - 1 := by
      show uriCount (unfetch_presence s u).1 u = _
      rw [uriCount_unfetch_presence_self]
      simp [hgt]
    have h3 : (k : Int) < uriCount (stepFU s (FUOp.unfetch u)).1 u := by
      rw [h2]; push_cast at hs; omega
    obtain ⟨he, hc⟩ := ih _ h3
    refine ⟨by rw [h1, he]; rfl, ?_⟩
    show uriCount (runFU (stepFU s (FUOp.unfetch u)).1 _).1 u = _
    rw [hc, h2]
    push_cast
    ring

/-! ### The refcount as a fold over the call sequence -/

theorem claimStep_nonneg (u : String) (acc : Int) (op : FUOp) (h : 0 ≤ acc) :
    0 ≤ claimStep u acc op := by
  cases op with
  | fetch v =>
    simp only [claimStep]
    split
    · omega
    · omega
  | unfetch v =>
    simp only [claimStep]
    split
    · exact le_max_of_le_left (le_refl 0)
    · omega

theorem uriCount_stepFU (s : PresenceCore) (op : FUOp) (u : String)
    (hsupp : is_supported_uri s u = true) (hnn : 0 ≤ uriCount s u) :
    uriCount (stepFU s op).1 u = claimStep u (uriCount s u) op := by
  cases op with
  | fetch v =>
    by_cases hv : v = u
    · rw [hv]
      show uriCount (fetch_presence s u).1 u = _
      rw [uriCount_fetch_presence_self s u hsupp]
      simp [claimStep]
    · show uriCount (fetch_presence s v).1 u = _
      rw [uriCount_fetch_presence_ne s u v hv]
      simp [claimStep, hv]
  | unfetch v =>
    by_cases hv : v = u
    · rw [hv]
      show uriCount (unfetch_presence s u).1 u = _
      rw [uriCount_unfetch_presence_self]
      simp only [claimStep, if_pos rfl]
      by_cases hc : 0 < uriCount s u <;> simp [hc] <;> omega
    · show uriCount (unfetch_presence s v).1 u = _
      rw [uriCount_unfetch_presence_ne s u v hv]
      simp [claimStep, hv]

theorem runFU_count_fold (u : String) (ops : List FUOp) : ∀ s : PresenceCore,
    is_supported_uri s u = true → 0 ≤ uriCount s u →
    uriCount (runFU s ops).1 u = ops.foldl (claimStep u) (uriCount s u) := by
  induction ops with
  | nil => intro s _ _; rfl
  | cons op ops ih =>
    intro s hs hnn
    rw [runFU_cons]
    show uriCount (runFU (stepFU s op).1 ops).1 u = _
    have hc := uriCount_stepFU s op u hs hnn
    rw [ih _ (by rw [stepFU_supported]; exact hs)
        (by rw [hc]; exact claimStep_nonneg u _ op hnn), hc]
    rfl

theorem foldl_claimStep_nonneg (u : String) (ops : List FUOp) : ∀ c : Int,
    0 ≤ c → 0 ≤ ops.foldl (claimStep u) c := by
  induction ops with
  | nil => intro c hc; exact hc
  | cons op ops ih =>
    intro c hc
    exact ih _ (claimStep_nonneg u c op hc)

/-! ### Claim theorems -/

theorem foldl_remove_fetchers (rs : List PresenceFetcher) : ∀ s : PresenceCore,
    (rs.foldl remove_presence_fetcher s).presence_fetchers =
      s.presence_fetchers.filter (fun g => rs.all (fun r => r.id != g.id)) := by
  induction rs with
  | nil => intro s; simp
  | cons r rs ih =>
    intro s
    show (rs.foldl remove_presence_fetcher (remove_presence_fetcher s r)).presence_fetchers = _
    rw [ih]
    show (s.presence_fetchers.filter (fun g => g.id != r.id)).filter _ = _
    rw [List.filter_filter]
    apply List.filter_congr
    intro a _
    have hcomm : (a.id != r.id) = (r.id != a.id) := by
      by_cases h : a.id = r.id
      · rw [h]
      · have h1 : (a.id != r.id) = true := bne_iff_ne.mpr h
        have h2 : (r.id != a.id) = true := bne_iff_ne.mpr (Ne.symm h)
        rw [h1, h2]
    simp [List.all_cons, hcomm, Bool.and_comm]

/-- C4: `is_supported_uri(u)` is true iff at least one currently-registered
fetcher supports `u`; in particular, after removing (by identity) a set of
fetchers covering every supporter of `u`, it returns false. -/
theorem C4_routing_correctness (s : PresenceCore) (u : String) :
    (is_supported_uri s u = true ↔ ∃ f ∈ s.presence_fetchers, f.supports u = true) ∧
    (∀ rs : List PresenceFetcher,
      (∀ g ∈ s.presence_fetchers, g.supports u = true → ∃ r ∈ rs, r.id = g.id) →
      is_supported_uri (rs.foldl remove_presence_fetcher s) u = false) := by
  constructor
  · unfold is_supported_uri fr_supports
    exact List.any_eq_true
  · intro rs hall
    unfold is_supported_uri fr_supports
    rw [foldl_remove_fetchers, List.any_eq_false]
    intro x hx
    rw [List.mem_filter] at hx
    obtain ⟨hxs, hall2⟩ := hx
    intro hsup
    obtain ⟨r, hr, hrid⟩ := hall x hxs hsup
    have hbne := List.all_eq_true.mp hall2 r hr
    simp [hrid] at hbne

/-- Witness for C4 at a concrete state: one fetcher supporting every uri,
then removed. -/
theorem C4_witness :
    (is_supported_uri sEx "sip:a@b" = true ↔
      ∃ f ∈ sEx.presence_fetchers, f.supports "sip:a@b" = true) ∧
    is_supported_uri ([Fex].foldl remove_presence_fetcher sEx) "sip:a@b" = false := by
  have h := C4_routing_correctness sEx "sip:a@b"
  refine ⟨h.1, h.2 [Fex] ?_⟩
  intro g hg _
  simp only [sEx] at hg
  rw [List.mem_singleton] at hg
  subst hg
  exact ⟨Fex, List.mem_singleton.mpr rfl, rfl⟩

/-- C5: when a registered fetcher emits `presence_received(uri, value)` the
core updates the cached presence (a subsequent snapshot returns the value
with the previous note) and re-emits the outward `presence_received` event;
symmetrically for `note_received` and the cached note.  Fetcher emissions
reach the core through the handlers `on_presence_received` /
`on_note_received`, which the core wires to every registered fetcher's
signals. -/
theorem C5_event_bridge (s : PresenceCore) (u v : String) :
    snapshot (on_presence_received s u v).1.uri_infos u =
      (v, (snapshot s.uri_infos u).2) ∧
    (on_presence_received s u v).2 = [Event.presence_received u v] ∧
    snapshot (on_note_received s u v).1.uri_infos u =
      ((snapshot s.uri_infos u).1, v) ∧
    (on_note_received s u v).2 = [Event.note_received u v] := by
  refine ⟨?_, rfl, ?_, rfl⟩
  · simp [on_presence_received, update_presence, snapshot, lookupInfo_setInfo_self]
  · simp [on_note_received, update_note, snapshot, lookupInfo_setInfo_self]

/-- C6: a personal-details change makes `publish()` call every
currently-registered publisher exactly once, all with the identical current
details snapshot, and call no unregistered (e.g. removed) publisher. -/
theorem C6_publish_fan_out (s : PresenceCore)
    (hnodup : (s.presence_publishers.map PresencePublisher.id).Nodup) :
    (∀ p ∈ s.presence_publishers,
      countEv (Event.published p.id s.details) (publish s) = 1) ∧
    (∀ pid : Nat, pid ∉ s.presence_publishers.map PresencePublisher.id →
      ∀ d : String, countEv (Event.published pid d) (publish s) = 0) ∧
    (∀ e ∈ publish s, ∃ p ∈ s.presence_publishers,
      e = Event.published p.id s.details) := by
  refine ⟨?_, ?_, ?_⟩
  · intro p hp
    show List.countP _ (s.presence_publishers.map _) = 1
    rw [List.countP_map]
    have hc : List.countP
        ((fun x => decide (x = Event.published p.id s.details)) ∘
          (fun q => Event.published q.id s.details)) s.presence_publishers =
        List.countP (fun q => q.id == p.id) s.presence_publishers := by
      apply List.countP_congr
      intro q _
      by_cases hq : q.id = p.id <;> simp [Function.comp, hq]
    rw [hc]
    have hm : List.countP (fun q => q.id == p.id) s.presence_publishers =
        List.count p.id (s.presence_publishers.map PresencePublisher.id) := by
      rw [List.count, List.countP_map]
      rfl
    rw [hm]
    exact List.count_eq_one_of_mem hnodup (List.mem_map.mpr ⟨p, hp, rfl⟩)
  · intro pid hpid d
    show List.countP _ (s.presence_publishers.map _) = 0
    rw [List.countP_map, List.countP_eq_zero]
    intro q hq
    simp only [Function.comp, decide_eq_true_eq]
    intro he
    apply hpid
    rw [Event.published.injEq] at he
    exact List.mem_map.mpr ⟨q, hq, he.1⟩
  · intro e he
    obtain ⟨p, hp, rfl⟩ := List.mem_map.mp he
    exact ⟨p, hp, rfl⟩

/-- Witness for C6 at a concrete state with two registered publishers. -/
theorem C6_witness :
    (sPub.presence_publishers.map PresencePublisher.id).Nodup ∧
    countEv (Event.published 1 "snap") (publish sPub) = 1 ∧
    countEv (Event.published 7 "snap") (publish sPub) = 0 := by
  have h := C6_publish_fan_out sPub (by decide)
  exact ⟨by decide, h.1 ⟨1⟩ (by decide), h.2.1 7 (by decide) "snap"⟩

/-- C7: registration is idempotent — adding the same cluster, fetcher or
publisher twice equals adding it once, with at most one `cluster_added`
event — and removing an unregistered one is a silent no-op. -/
theorem C7_idempotent_registration (s : PresenceCore) (c : Nat)
    (f : PresenceFetcher) (p : PresencePublisher) :
    (add_cluster (add_cluster s c).1 c).1 = (add_cluster s c).1 ∧
    (add_cluster (add_cluster s c).1 c).2 = [] ∧
    (c ∉ s.clusters → (add_cluster s c).2 = [Event.cluster_added c]) ∧
    (c ∈ s.clusters → (add_cluster s c).2 = []) ∧
    (c ∉ s.clusters → remove_cluster s c = (s, [])) ∧
    add_presence_fetcher (add_presence_fetcher s f) f = add_presence_fetcher s f ∧
    ((∀ g ∈ s.presence_fetchers, g.id ≠ f.id) → remove_presence_fetcher s f = s) ∧
    add_presence_publisher (add_presence_publisher s p) p = add_presence_publisher s p ∧
    ((∀ q ∈ s.presence_publishers, q.id ≠ p.id) → remove_presence_publisher s p = s) := by
  refine ⟨?_, ?_, ?_, ?_, ?_, ?_, ?_, ?_, ?_⟩
  · by_cases h : c ∈ s.clusters
    · simp [add_cluster, h]
    · simp [add_cluster, h]
  · by_cases h : c ∈ s.clusters
    · simp [add_cluster, h]
    · simp [add_cluster, h]
  · intro h
    simp [add_cluster, h]
  · intro h
    simp [add_cluster, h]
  · intro h
    simp [remove_cluster, h]
  · show { s with presence_fetchers := fr_add (fr_add s.presence_fetchers f) f } = _
    have hr : fr_add (fr_add s.presence_fetchers f) f = fr_add s.presence_fetchers f := by
      by_cases h : s.presence_fetchers.any (fun g => g.id == f.id) = true
      · simp [fr_add, h]
      · simp [fr_add, h, List.any_append]
    rw [hr]
    rfl
  · intro hall
    show { s with presence_fetchers := fr_remove s.presence_fetchers f } = s
    have hr : fr_remove s.presence_fetchers f = s.presence_fetchers :=
      List.filter_eq_self.mpr (fun g hg => bne_iff_ne.mpr (hall g hg))
    rw [hr]
  · show { s with presence_publishers := pr_add (pr_add s.presence_publishers p) p } = _
    have hr : pr_add (pr_add s.presence_publishers p) p = pr_add s.presence_publishers p := by
      by_cases h : s.presence_publishers.any (fun q => q.id == p.id) = true
      · simp [pr_add, h]
      · simp [pr_add, h, List.any_append]
    rw [hr]
    rfl
  · intro hall
    show { s with presence_publishers := pr_remove s.presence_publishers p } = s
    have hr : pr_remove s.presence_publishers p = s.presence_publishers :=
      List.filter_eq_self.mpr (fun q hq => bne_iff_ne.mpr (hall q hq))
    rw [hr]

/-- Witness for C7 at a concrete state: double adds collapse, absent
removals are no-ops. -/
theorem C7_witness :
    (add_cluster (add_cluster sEx 5).1 5).1 = (add_cluster sEx 5).1 ∧
    (add_cluster sEx 5).2 = [Event.cluster_added 5] ∧
    remove_cluster sEx 5 = (sEx, []) ∧
    remove_presence_fetcher sEx Fnone = sEx ∧
    remove_presence_publisher sEx ⟨9⟩ = sEx := by
  have h := C7_idempotent_registration sEx 5 Fnone ⟨9⟩
  refine ⟨h.1, h.2.2.1 (by decide), h.2.2.2.2.1 (by decide),
    h.2.2.2.2.2.2.1 ?_, h.2.2.2.2.2.2.2.2 ?_⟩
  · intro g hg
    simp only [sEx] at hg
    rw [List.mem_singleton] at hg
    subst hg
    decide
  · intro q hq
    simp only [sEx] at hq
    simp at hq

/-- C8 counterexample: after registering a fetcher for `"u"`, fetching
presence once and removing the fetcher, no registered fetcher supports
`"u"`, yet `unfetch_presence("u")` still changes the core's state (the
cached refcount drops from 1 to 0), contradicting the claim that the call
leaves the state as if it had not happened. -/
theorem C8_counterexample :
    is_supported_uri c8state "u" = false ∧
    uriCount c8state "u" = 1 ∧
    uriCount (unfetch_presence c8state "u").1 "u" = 0 := by
  refine ⟨by decide, by decide, by decide⟩

/-- C8 (amended): for a uri `u` no registered fetcher supports,
`fetch_presence(u)` is a complete no-op (state unchanged, no dispatch, no
error), and `unfetch_presence(u)` dispatches no underlying `unfetch` to any
fetcher and raises no error; when additionally no positive refcount is
cached for `u` (the case when `u` was never successfully fetched),
`unfetch_presence(u)` also leaves the state unchanged. -/
theorem C8_amended_unsupported (s : PresenceCore) (u : String)
    (h : is_supported_uri s u = false) :
    fetch_presence s u = (s, []) ∧
    (unfetch_presence s u).2 = [] ∧
    (uriCount s u ≤ 0 → unfetch_presence s u = (s, [])) := by
  have hsupnil : s.presence_fetchers.filter (fun g => g.supports u) = [] := by
    rw [List.filter_eq_nil_iff]
    intro g hg
    have := List.any_eq_false.mp h g hg
    simpa using this
  refine ⟨by simp [fetch_presence, h], ?_, ?_⟩
  · rw [unfetch_presence_events]
    by_cases h1 : uriCount s u = 1
    · simp [h1, fr_unfetch, hsupnil]
    · simp [h1]
  · intro hle
    cases hl : lookupInfo s.uri_infos u with
    | none => simp [unfetch_presence, release, hl]
    | some i =>
      have hc : ¬ 0 < i.count := by
        unfold uriCount at hle
        rw [hl] at hle
        simp at hle
        omega
      simp [unfetch_presence, release, hl, hc]

/-- Witness for C8 (amended) at a concrete state with no fetchers. -/
theorem C8_witness :
    is_supported_uri (mkPresenceCore "d") "xmpp:c@d" = false ∧
    fetch_presence (mkPresenceCore "d") "xmpp:c@d" = (mkPresenceCore "d", []) ∧
    unfetch_presence (mkPresenceCore "d") "xmpp:c@d" = (mkPresenceCore "d", []) := by
  have h := C8_amended_unsupported (mkPresenceCore "d") "xmpp:c@d" rfl
  exact ⟨rfl, h.1, h.2.2 (by decide)⟩

/-- C9: reading the cached state of a uri that has no cache record — in
particular any uri on a freshly-constructed core — yields the defaults
`("unknown", "")`.  The only operations creating a record are a supported
`fetch_presence` and the two fetcher-event handlers, so a never-fetched,
never-reported uri has no record. -/
theorem C9_default_state (s : PresenceCore) (u d : String)
    (h : lookupInfo s.uri_infos u = none) :
    snapshot (mkPresenceCore d).uri_infos u = ("unknown", "") ∧
    snapshot s.uri_infos u = ("unknown", "") := by
  constructor
  · rfl
  · simp [snapshot, h, uri_info.init]

/-- Witness for C9 at a concrete never-seen uri. -/
theorem C9_witness :
    lookupInfo sEx.uri_infos "sip:x@y" = none ∧
    (snapshot (mkPresenceCore "d").uri_infos "sip:x@y" = ("unknown", "") ∧
     snapshot sEx.uri_infos "sip:x@y" = ("unknown", "")) :=
  ⟨rfl, C9_default_state sEx "sip:x@y" "d" rfl⟩

theorem runSpark_present (k : Nat) : ∀ (sp : XCAPSpark) (core : List String),
    serviceGet core xcapServiceName = true → runSpark sp core k = (sp, core) := by
  induction k with
  | zero => intro sp core _; rfl
  | succ k ih =>
    intro sp core h
    show runSpark (try_initialize_more sp core).1.1 (try_initialize_more sp core).1.2 k = _
    rw [show try_initialize_more sp core = ((sp, core), sp.result) from by
      simp [try_initialize_more, h]]
    exact ih sp core h

/-- C10: starting from a freshly-constructed spark, any positive number of
`try_initialize_more` calls against the same service core adds the XCAP
service exactly when no service named `"xcap-core"` was registered — and
then only once, leaving the core otherwise unchanged — and `get_state`
returns `FULL` exactly when this spark performed the registration. -/
theorem C10_xcap_single_registration (core : List String) (n : Nat) (hn : 1 ≤ n) :
    (runSpark { result := false } core n).2 =
      (if core.contains xcapServiceName then core else core ++ [xcapServiceName]) ∧
    ((runSpark { result := false } core n).1.get_state = SparkState.FULL ↔
      core.contains xcapServiceName = false) ∧
    (∀ (sp : XCAPSpark) (c : List String), serviceGet c xcapServiceName = true →
      try_initialize_more sp c = ((sp, c), sp.result)) := by
  obtain ⟨m, rfl⟩ : ∃ m, n = m + 1 := ⟨n - 1, by omega⟩
  have hlast : ∀ (sp : XCAPSpark) (c : List String),
      serviceGet c xcapServiceName = true →
      try_initialize_more sp c = ((sp, c), sp.result) := by
    intro sp c h
    simp [try_initialize_more, h]
  by_cases h : core.contains xcapServiceName = true
  · have hrun : runSpark { result := false } core (m + 1) = ({ result := false }, core) :=
      runSpark_present (m + 1) _ _ h
    rw [hrun]
    have hmem : xcapServiceName ∈ core := List.mem_of_elem_eq_true h
    refine ⟨by simp [hmem], ?_, hlast⟩
    simp [XCAPSpark.get_state, hmem]
  · have hmem : xcapServiceName ∉ core := fun hm => h (List.elem_eq_true_of_mem hm)
    have hstep : try_initialize_more { result := false } core =
        (({ result := true }, core ++ [xcapServiceName]), true) := by
      simp [try_initialize_more, serviceGet, hmem]
    have hpres : serviceGet (core ++ [xcapServiceName]) xcapServiceName = true := by
      apply List.elem_eq_true_of_mem
      simp
    have hrun : runSpark { result := false } core (m + 1) =
        ({ result := true }, core ++ [xcapServiceName]) := by
      show runSpark (try_initialize_more { result := false } core).1.1
        (try_initialize_more { result := false } core).1.2 m = _
      rw [hstep]
      exact runSpark_present m _ _ hpres
    rw [hrun]
    refine ⟨by simp [hmem], ?_, hlast⟩
    simp [XCAPSpark.get_state, hmem]
/-- Witness for C10 at a concrete service core lacking the XCAP service. -/
theorem C10_witness :
    1 ≤ 2 ∧
    (runSpark { result := false } ["foo"] 2).2 =
      (if List.contains ["foo"] xcapServiceName then ["foo"]
       else ["foo"] ++ [xcapServiceName]) ∧
    ((runSpark { result := false } ["foo"] 2).1.get_state = SparkState.FULL ↔
      List.contains ["foo"] xcapServiceName = false) := by
  have h := C10_xcap_single_registration ["foo"] 2 (by omega)
  exact ⟨by omega, h.1, h.2.1⟩

/-- C3 counterexample: with a supporting fetcher registered, the call
sequence `[unfetch_presence("u"), fetch_presence("u")]` leaves a cached
refcount of 1, while the claim's formula (#fetch − #unfetch clamped at 0)
predicts 0: the clamp must be applied per call, not at the end. -/
theorem C3_counterexample :
    uriCount (runFU sEx [FUOp.unfetch "u", FUOp.fetch "u"]).1 "u" ≠
      specClaimedCount "u" [FUOp.unfetch "u", FUOp.fetch "u"] := by
  decide

/-- C3 (amended): for every uri `u` supported by some registered fetcher and
starting with no cached refcount, after any finite sequence of
`fetch_presence`/`unfetch_presence` calls the cached refcount equals the
left fold of the sequence that adds 1 per `fetch_presence(u)` and subtracts
1 clamped at 0 per `unfetch_presence(u)` — which equals
(#fetch − #unfetch) clamped at 0 whenever no prefix contains more unfetches
than fetches — and the refcount is never negative at any intermediate
state. -/
theorem C3_amended_refcount (s : PresenceCore) (u : String) (ops : List FUOp)
    (hsupp : is_supported_uri s u = true) (h0 : uriCount s u = 0) :
    uriCount (runFU s ops).1 u = clampFold u ops ∧
    ∀ k : Nat, 0 ≤ uriCount (runFU s (ops.take k)).1 u := by
  have hm : ∀ l : List FUOp,
      uriCount (runFU s l).1 u = l.foldl (claimStep u) 0 := by
    intro l
    rw [runFU_count_fold u l s hsupp (by simp [h0]), h0]
  exact ⟨hm ops, fun k => by
    rw [hm (ops.take k)]
    exact foldl_claimStep_nonneg u (ops.take k) 0 le_rfl⟩

/-- Witness for C3 (amended) at a concrete call sequence. -/
theorem C3_witness :
    is_supported_uri sEx "u" = true ∧ uriCount sEx "u" = 0 ∧
    uriCount (runFU sEx [FUOp.fetch "u", FUOp.fetch "u", FUOp.unfetch "u"]).1 "u" =
      clampFold "u" [FUOp.fetch "u", FUOp.fetch "u", FUOp.unfetch "u"] :=
  ⟨rfl, rfl,
    (C3_amended_refcount sEx "u" [FUOp.fetch "u", FUOp.fetch "u", FUOp.unfetch "u"]
      rfl rfl).1⟩

/-- C1: for a fetcher registered (once, by identity) that supports `u`,
a run of N ≥ 1 `fetch_presence(u)` calls with no intervening
`unfetch_presence(u)`, starting with no cached refcount for `u`, forwards
exactly one underlying `fetch(u)` to that fetcher — on the 0 → 1 refcount
transition of the first call. -/
theorem C1_single_fetch_dispatch (s : PresenceCore) (F : PresenceFetcher)
    (u : String) (N : Nat)
    (hfilter : s.presence_fetchers.filter (fun g => g.id == F.id) = [F])
    (hsupp : F.supports u = true)
    (h0 : uriCount s u = 0) (hN : 1 ≤ N) :
    countEv (Event.fetch F.id u)
      (runFU s (List.replicate N (FUOp.fetch u))).2 = 1 := by
  obtain ⟨m, rfl⟩ : ∃ m, N = m + 1 := ⟨N - 1, by omega⟩
  rw [List.replicate_succ, runFU_cons]
  have hmem : F ∈ s.presence_fetchers := by
    apply List.mem_of_mem_filter (p := fun g => g.id == F.id)
    rw [hfilter]
    exact List.mem_singleton.mpr rfl
  have hsup_s : is_supported_uri s u = true := by
    unfold is_supported_uri fr_supports
    exact List.any_eq_true.mpr ⟨F, hmem, hsupp⟩
  have hev1 : (stepFU s (FUOp.fetch u)).2 = fr_fetch s.presence_fetchers u := by
    show (fetch_presence s u).2 = _
    rw [fetch_presence_events]
    simp [hsup_s, h0]
  have hcnt : uriCount (stepFU s (FUOp.fetch u)).1 u = 1 := by
    show uriCount (fetch_presence s u).1 u = 1
    rw [uriCount_fetch_presence_self s u hsup_s, h0]
    ring
  have hrest : (runFU (stepFU s (FUOp.fetch u)).1
      (List.replicate m (FUOp.fetch u))).2 = [] :=
    runFU_fetch_silent u m _ (le_of_eq hcnt.symm)
  show countEv _ ((stepFU s (FUOp.fetch u)).2 ++ _) = 1
  rw [countEv_append, hev1, hrest,
    countEv_fr_fetch_eq_one s.presence_fetchers F u hfilter hsupp]
  rfl

/-- Witness for C1 at a concrete state and N = 2. -/
theorem C1_witness :
    sEx.presence_fetchers.filter (fun g => g.id == Fex.id) = [Fex] ∧
    Fex.supports "sip:a@b" = true ∧
    uriCount sEx "sip:a@b" = 0 ∧ 1 ≤ 2 ∧
    countEv (Event.fetch Fex.id "sip:a@b")
      (runFU sEx (List.replicate 2 (FUOp.fetch "sip:a@b"))).2 = 1 :=
  ⟨rfl, rfl, rfl, by omega,
    C1_single_fetch_dispatch sEx Fex "sip:a@b" 2 rfl rfl rfl (by omega)⟩

theorem stepFU_unfetch_def (s : PresenceCore) (u : String) :
    stepFU s (FUOp.unfetch u) = unfetch_presence s u := rfl

/-- C2: for a fetcher registered (once, by identity) that supports `u`,
after N `fetch_presence(u)` calls followed by N `unfetch_presence(u)` calls
from a state with no cached refcount, exactly one underlying `unfetch(u)`
reaches that fetcher, and none is issued before the N-th unfetch: the trace
of the N fetches followed by only N − 1 unfetches contains no underlying
`unfetch(u)` at all. -/
theorem C2_single_unfetch_dispatch (s : PresenceCore) (F : PresenceFetcher)
    (u : String) (N : Nat)
    (hfilter : s.presence_fetchers.filter (fun g => g.id == F.id) = [F])
    (hsupp : F.supports u = true)
    (h0 : uriCount s u = 0) (hN : 1 ≤ N) :
    countEv (Event.unfetch F.id u)
      (runFU s (List.replicate N (FUOp.fetch u) ++
                List.replicate N (FUOp.unfetch u))).2 = 1 ∧
    countEv (Event.unfetch F.id u)
      (runFU s (List.replicate N (FUOp.fetch u) ++
                List.replicate (N - 1) (FUOp.unfetch u))).2 = 0 := by
  obtain ⟨m, rfl⟩ : ∃ m, N = m + 1 := ⟨N - 1, by omega⟩
  have hmem : F ∈ s.presence_fetchers := by
    apply List.mem_of_mem_filter (p := fun g => g.id == F.id)
    rw [hfilter]
    exact List.mem_singleton.mpr rfl
  have hsup_s : is_supported_uri s u = true := by
    unfold is_supported_uri fr_supports
    exact List.any_eq_true.mpr ⟨F, hmem, hsupp⟩
  have hC1 : uriCount (runFU s (List.replicate (m + 1) (FUOp.fetch u))).1 u =
      (m : Int) + 1 := by
    rw [runFU_fetch_count u (m + 1) s hsup_s, h0]
    push_cast
    ring
  have hT1 : countEv (Event.unfetch F.id u)
      (runFU s (List.replicate (m + 1) (FUOp.fetch u))).2 = 0 :=
    runFU_fetch_no_unfetch_ev u F.id u (m + 1) s
  have hfp : (runFU s (List.replicate (m + 1) (FUOp.fetch u))).1.presence_fetchers
      = s.presence_fetchers := runFU_fetchers _ _
  obtain ⟨hpreT, hpreC⟩ := runFU_unfetch_silent u m
    (runFU s (List.replicate (m + 1) (FUOp.fetch u))).1
    (by rw [hC1]; omega)
  have hC2 : uriCount (runFU (runFU s (List.replicate (m + 1) (FUOp.fetch u))).1
      (List.replicate m (FUOp.unfetch u))).1 u = 1 := by
    rw [hpreC, hC1]
    ring
  have hfp2 : (runFU (runFU s (List.replicate (m + 1) (FUOp.fetch u))).1
      (List.replicate m (FUOp.unfetch u))).1.presence_fetchers =
      s.presence_fetchers := by
    rw [runFU_fetchers, hfp]
  have hlast : (unfetch_presence (runFU (runFU s
      (List.replicate (m + 1) (FUOp.fetch u))).1
      (List.replicate m (FUOp.unfetch u))).1 u).2 =
      fr_unfetch s.presence_fetchers u := by
    rw [unfetch_presence_events]
    simp only [hC2, if_pos]
    rw [hfp2]
  constructor
  · rw [runFU_append, countEv_append, hT1]
    rw [List.replicate_succ' m (FUOp.unfetch u)]
    rw [runFU_append, countEv_append, hpreT]
    rw [runFU_cons, countEv_append, stepFU_unfetch_def, hlast]
    rw [countEv_fr_unfetch_eq_one s.presence_fetchers F u hfilter hsupp]
    rfl
  · simp only [Nat.add_sub_cancel]
    rw [runFU_append, countEv_append, hT1, hpreT]
    rfl

/-- Witness for C2 at a concrete state and N = 2. -/
theorem C2_witness :
    sEx.presence_fetchers.filter (fun g => g.id == Fex.id) = [Fex] ∧
    Fex.supports "sip:a@b" = true ∧
    uriCount sEx "sip:a@b" = 0 ∧ 1 ≤ 2 ∧
    countEv (Event.unfetch Fex.id "sip:a@b")
      (runFU sEx (List.replicate 2 (FUOp.fetch "sip:a@b") ++
                  List.replicate 2 (FUOp.unfetch "sip:a@b"))).2 = 1 ∧
    countEv (Event.unfetch Fex.id "sip:a@b")
      (runFU sEx (List.replicate 2 (FUOp.fetch "sip:a@b") ++
                  List.replicate (2 - 1) (FUOp.unfetch "sip:a@b"))).2 = 0 := by
  have h := C2_single_unfetch_dispatch sEx Fex "sip:a@b" 2 rfl rfl rfl (by omega)
  exact ⟨rfl, rfl, rfl, by omega, h.1, h.2⟩
